import Mathlib

/-!
Shallow embedding of the TPU orchestration module `src/levanter/infra/ray_tpu.py`
(the failure classifier `_handle_ray_error`, the per-attempt outcome aggregation
and polling loop of `run_on_pod_ray`, the generic `ResourcePoolManager`
operations `scale_actor_pool` / `drain_actor_pool`, the multislice coordination
environment plumbing, and the outer retry loop with its two budgets).

Remote effects are modelled by explicit data: a resolved Ray future carries
either a value or a `RemoteError` describing which exception class `ray.get`
raised; the platform preemption signal (`get_current_tpu_is_preempted`) is a
boolean parameter; `ray.wait` scheduling is an explicit list saying which
pending future (if any) resolves in each polling cycle.
-/

namespace RayTpu

/-- Exception classes that a resolved Ray future can surface to the orchestrator,
mirroring the `isinstance` dispatch of `_handle_ray_error` (ray_tpu.py lines
727-762) plus the two `except` arms of the polling loop (lines 578-585).
`rayTask` carries whether `e.cause` is a `TimeoutError` and whether the text
"timed out" occurs in `str(e)`; `otherRayError` is any `RayError` subclass not
explicitly recognized; `nonRayError` is a plain `Exception` that is not a
`RayError` (caught by the generic handler at line 582). -/
inductive RemoteError where
  | nodeDied
  | actorUnavailable
  | actorDied
  | workerCrashed
  | raySystem
  | rayTask (causeIsTimeout : Bool) (msgHasTimedOut : Bool)
  | otherRayError
  | nonRayError
deriving DecidableEq, Repr

/-- The `_TpuRunResult` tagged union (ray_tpu.py lines 95-124): `TpuSuccess`,
`TpuPreempted`, `TpuFailed`, `TpuRunError`, `TpuCancelled`.  `cancelled` carries
no `RemoteError` because the code builds it with a fresh synthetic
`RuntimeError` (line 617). -/
inductive TpuRunResult (α : Type) where
  | success (result : α)
  | preempted (error : RemoteError)
  | failed (error : RemoteError)
  | runError (error : RemoteError)
  | cancelled
deriving DecidableEq, Repr

/-- The failure classifier `_handle_ray_error` (ray_tpu.py lines 727-762).
`tpuIsPreempted` is the value of the live platform signal
`get_current_tpu_is_preempted()` consulted in the `RayTaskError` branch. -/
def handle_ray_error {α : Type} (tpuIsPreempted : Bool) (e : RemoteError) : TpuRunResult α :=
  match e with
  | .nodeDied => .preempted e
  | .actorUnavailable => .preempted e
  | .actorDied => .preempted e
  | .workerCrashed => .preempted e
  | .raySystem => .runError e
  | .rayTask causeIsTimeout msgHasTimedOut =>
    if tpuIsPreempted then .preempted e
    else if causeIsTimeout || msgHasTimedOut then .preempted e
    else .runError e
  | .otherRayError => .runError e
  | .nonRayError => .runError e

/-- How the polling loop turns the exception raised by `ray.get(f)` into a
`_TpuRunResult` (ray_tpu.py lines 576-585): a `RayError` goes through
`_handle_ray_error`, any other exception becomes `TpuRunError` directly. -/
def classify_resolved_error {α : Type} (tpuIsPreempted : Bool) (e : RemoteError) : TpuRunResult α :=
  match e with
  | .nonRayError => .runError .nonRayError
  | _ => handle_ray_error tpuIsPreempted e

/-- Accumulator of the result-processing pass (ray_tpu.py lines 624-648):
`out_results`, `any_preempted`, `any_failed`, `any_cancelled`, and the
`problems` list that collects the underlying errors. -/
structure OutcomeAgg (α : Type) where
  outResults : List α
  anyPreempted : Bool
  anyFailed : Bool
  anyCancelled : Bool
  problems : List RemoteError
deriving DecidableEq, Repr

/-- What `run_on_pod_ray` decides after processing one attempt
(ray_tpu.py lines 650-672): retry counting a preemption, retry counting a
failure, retry counting nothing (pure sibling cancellation), or return the
ordered results. -/
inductive AttemptDecision (α : Type) where
  | retryPreempted
  | retryFailed
  | retryCancelled
  | done (results : List α)
deriving DecidableEq, Repr

/-- One iteration of the `for result in tpu_results` loop
(ray_tpu.py lines 629-648). -/
def agg_step {α : Type} (acc : OutcomeAgg α) (r : TpuRunResult α) : OutcomeAgg α :=
  match r with
  | .success v => { acc with outResults := acc.outResults ++ [v] }
  | .preempted e => { acc with anyPreempted := true, problems := acc.problems ++ [e] }
  | .failed e => { acc with anyPreempted := true, problems := acc.problems ++ [e] }
  | .runError e => { acc with anyFailed := true, problems := acc.problems ++ [e] }
  | .cancelled => { acc with anyCancelled := true }

/-- The empty accumulator at the start of the result-processing pass. -/
def emptyAgg (α : Type) : OutcomeAgg α := ⟨[], false, false, false, []⟩

/-- Result processing and the decision chain of one attempt
(ray_tpu.py lines 624-672): `any_preempted` wins, then `any_failed`, then
`any_cancelled`, otherwise the ordered successes are returned. -/
def process_results {α : Type} (l : List (TpuRunResult α)) : AttemptDecision α :=
  let a := l.foldl agg_step (emptyAgg α)
  if a.anyPreempted then .retryPreempted
  else if a.anyFailed then .retryFailed
  else if a.anyCancelled then .retryCancelled
  else .done a.outResults

/-- How one attempt decision moves the two retry counters
(`num_failures` delta, `num_preemptions` delta): the preempted branch runs
`num_preemptions += 1` (line 652), the failed branch runs `num_failures += 1`
(line 664), the cancelled branch and success increment neither. -/
def counter_delta {α : Type} (d : AttemptDecision α) : Nat × Nat :=
  match d with
  | .retryFailed => (1, 0)
  | .retryPreempted => (0, 1)
  | .retryCancelled => (0, 0)
  | .done _ => (0, 0)

/-- Matches `TpuPreempted` or `TpuFailed`, the two variants that set
`any_preempted` during result processing. -/
def isPreemptedLike {α : Type} : TpuRunResult α → Bool
  | .preempted _ => true
  | .failed _ => true
  | _ => false

/-- Matches `TpuRunError`, the variant that sets `any_failed`. -/
def isRunErrorKind {α : Type} : TpuRunResult α → Bool
  | .runError _ => true
  | _ => false

/-- Matches `TpuCancelled`. -/
def isCancelledKind {α : Type} : TpuRunResult α → Bool
  | .cancelled => true
  | _ => false

/-- Matches `TpuFailed`, the InfrastructureFailure result kind. -/
def isFailedKind {α : Type} : TpuRunResult α → Bool
  | .failed _ => true
  | _ => false

/-! ### The generic resource pool (`ResourcePoolManager`, ray_tpu.py lines 207-297) -/

/-- What one member's `healthy.remote()` check comes back as inside
`_remove_unhealthy_members_from_actor_pool` (lines 238-247): it returns `True`,
it returns `False`, or `ray.get` raises one of the five caught exception
classes (`RayActorError`, `RayTaskError`, `ActorDiedError`,
`ActorUnavailableError`, `GetTimeoutError`). -/
inductive HealthCheckResult where
  | healthy
  | unhealthy
  | checkRaised
deriving DecidableEq, Repr

/-- How `_stop_actor` (ray_tpu.py lines 694-712) goes for one actor: the
graceful teardown and terminate calls return, or `ray.get` raises
`ActorDiedError` (absorbed by the first `except`), or `GetTimeoutError`
(absorbed with a warning), or some other exception — e.g. an
`ActorUnavailableError` or a `RayTaskError` from the actor's own `teardown()`
body — which is not caught and propagates to the caller. -/
inductive StopOutcome where
  | clean
  | actorDied
  | timeout
  | unexpectedError
deriving DecidableEq, Repr

/-- True when `_stop_actor` returns without raising for this stop outcome. -/
def stop_absorbs : StopOutcome → Bool
  | .unexpectedError => false
  | _ => true

/-- A pool member: its health-check behavior and its stop behavior. -/
structure PoolMember where
  health : HealthCheckResult
  stop : StopOutcome
deriving DecidableEq, Repr

/-- True when the member's health check returns `True` (the only case kept in
the pool by `_remove_unhealthy_members_from_actor_pool`). -/
def member_checks_healthy (m : PoolMember) : Bool :=
  match m.health with
  | .healthy => true
  | _ => false

/-- The sequential `_stop_actor` loop over a list of members (used for the
unhealthy members at lines 250-252 and for draining at lines 293-295): the
first stop whose exception is not absorbed propagates. -/
def stop_members : List PoolMember → Except Unit Unit
  | [] => .ok ()
  | m :: rest => if stop_absorbs m.stop then stop_members rest else .error ()

/-- `_remove_unhealthy_members_from_actor_pool` (ray_tpu.py lines 233-255):
partition the pool by health check, sequentially stop the unhealthy members
(an unabsorbed stop exception propagates), keep the healthy ones. -/
def remove_unhealthy_members (pool : List PoolMember) : Except Unit (List PoolMember) :=
  match stop_members (pool.filter (fun m => !member_checks_healthy m)) with
  | .ok () => .ok (pool.filter member_checks_healthy)
  | .error () => .error ()

/-- Behavior of one newly created actor inside `_add_members_to_actor_pool`:
whether its info future resolves within the start timeout (`reports`), how
`_stop_actor` behaves if it does not (`failStop`, line 275), and the pool
member it becomes when it does report. -/
structure NewActor where
  reports : Bool
  failStop : StopOutcome
  member : PoolMember
deriving DecidableEq, Repr

/-- The sequential wait-for-info loop of `_add_members_to_actor_pool`
(ray_tpu.py lines 270-278): a reporting actor is appended to the pool, a
non-reporting one is stopped and dropped silently, and an unabsorbed stop
exception propagates. -/
def add_loop : List PoolMember → List NewActor → Except Unit (List PoolMember)
  | pool, [] => .ok pool
  | pool, a :: rest =>
    if a.reports then add_loop (pool ++ [a.member]) rest
    else if stop_absorbs a.failStop then add_loop pool rest
    else .error ()

/-- Why `scale_actor_pool` can raise: an unabsorbed `_stop_actor` exception, or
the explicit "Wanted ... but only acquired ..." exception at line 284. -/
inductive ScaleError where
  | stopRaised
  | couldNotAcquire
deriving DecidableEq, Repr

/-- `_add_members_to_actor_pool` (ray_tpu.py lines 257-284): skip entirely when
the pool already has at least `desired_num_actors` members, otherwise create
exactly the shortfall (`supply i` is the behavior of the i-th created actor),
wait for each, and raise when the pool is still short afterwards. -/
def add_members_to_actor_pool (pool : List PoolMember) (supply : Nat → NewActor)
    (desired : Nat) : Except ScaleError (List PoolMember) :=
  if pool.length ≥ desired then .ok pool
  else
    match add_loop pool ((List.range (desired - pool.length)).map supply) with
    | .error () => .error .stopRaised
    | .ok pool2 => if pool2.length < desired then .error .couldNotAcquire else .ok pool2

/-- `scale_actor_pool` (ray_tpu.py lines 286-289): prune unhealthy members,
then add members up to the desired count. -/
def scale_actor_pool (pool : List PoolMember) (supply : Nat → NewActor)
    (desired : Nat) : Except ScaleError (List PoolMember) :=
  match remove_unhealthy_members pool with
  | .error () => .error .stopRaised
  | .ok healthy => add_members_to_actor_pool healthy supply desired

/-- `drain_actor_pool` (ray_tpu.py lines 291-297): sequentially `_stop_actor`
every member, then set the pool to `[]`.  The assignment happens after the
loop, so an unabsorbed stop exception propagates and leaves the pool field
unchanged (modelled as `.error`). -/
def drain_actor_pool (pool : List PoolMember) : Except Unit (List PoolMember) :=
  match stop_members pool with
  | .ok () => .ok []
  | .error () => .error ()

/-! ### Multislice coordination metadata (ray_tpu.py lines 128-192, 540-561) -/

/-- `SliceInfo` (ray_tpu.py lines 141-152). -/
structure SliceInfo where
  sliceName : String
  numHosts : Nat
  ipAddress : String
  numTpusPerHost : Nat
deriving DecidableEq, Repr

/-- `MultisliceInfo` (ray_tpu.py lines 127-138). -/
structure MultisliceInfo where
  coordinatorIp : String
  sliceId : Nat
  numSlices : Nat
  port : Nat
deriving DecidableEq, Repr

/-- `_multislice_info_from_head` (ray_tpu.py lines 170-179): port is the
hard-coded megascale default 8081. -/
def multislice_info_from_head (head : SliceInfo) (sliceId numSlices : Nat) : MultisliceInfo :=
  { coordinatorIp := head.ipAddress, sliceId := sliceId, numSlices := numSlices, port := 8081 }

/-- `_multislice_info_to_env_vars` (ray_tpu.py lines 182-192), including its
`is not None` guard; the dict is kept as an association list in insertion
order. -/
def multislice_info_to_env_vars (multislice : Option MultisliceInfo) : List (String × String) :=
  match multislice with
  | some m =>
    [("MEGASCALE_COORDINATOR_ADDRESS", m.coordinatorIp ++ ":" ++ toString m.port),
     ("MEGASCALE_NUM_SLICES", toString m.numSlices),
     ("MEGASCALE_PORT", toString m.port),
     ("MEGASCALE_SLICE_ID", toString m.sliceId)]
  | none => []

/-- `head_slice_info = slice_pool[0].actor_info if len(slice_pool) > 1 else None`
(ray_tpu.py line 541). -/
def head_slice_info (slicePool : List SliceInfo) : Option SliceInfo :=
  if slicePool.length > 1 then slicePool[0]? else none

/-- The per-slice coordination environment computed inside the dispatch loop
(ray_tpu.py lines 548-553) for the slice at position `i` in the pool: derived
from the head slice when there is one, otherwise the empty environment. -/
def mxla_env_for_slice (slicePool : List SliceInfo) (i : Nat) : List (String × String) :=
  match head_slice_info slicePool with
  | some head => multislice_info_to_env_vars (some (multislice_info_from_head head i slicePool.length))
  | none => []

/-! ### The polling loop of one attempt (ray_tpu.py lines 544-648) -/

/-- What a dispatched per-host future eventually resolves to: a value, or an
exception of some `RemoteError` class. -/
inductive FutureOutcome (α : Type) where
  | ok (value : α)
  | err (e : RemoteError)
deriving DecidableEq, Repr

/-- The mutable state of the waiting loop: `tpu_results` (entry `i` is `none`
while future `i` is unresolved), `pending_futures` (as dispatch indices, via
`future_to_index`), and `had_a_failure`. -/
structure LoopState (α : Type) where
  results : List (Option (TpuRunResult α))
  pending : List Nat
  hadFailure : Bool
deriving DecidableEq, Repr

/-- State on entry to the waiting loop (ray_tpu.py lines 563-567):
`tpu_results = [None] * len(futures)`, all futures pending, no failure. -/
def init_state (α : Type) (n : Nat) : LoopState α :=
  ⟨List.replicate n none, List.range n, false⟩

/-- One iteration of the `while pending_futures and not had_a_failure` body
(ray_tpu.py lines 572-602).  `sched` says which pending future `ray.wait`
hands back this cycle (`none` = 10s timeout with nothing finished).  A future
resolving to a value is recorded as `TpuSuccess` at its dispatch index; one
resolving to an exception is recorded via `classify_resolved_error` and sets
`had_a_failure`, skipping the health check (the `break` at line 589).
Otherwise the cycle ends by reading `actor_healths` and marking a failure when
any entry is `False` (lines 592-602). -/
def step_cycle {α : Type} (outs : List (FutureOutcome α)) (tpuIsPreempted : Bool)
    (healthObs : List Bool) (sched : Option Nat) (st : LoopState α) : LoopState α :=
  match sched with
  | none => ⟨st.results, st.pending, st.hadFailure || healthObs.any (fun b => !b)⟩
  | some i =>
    if i ∈ st.pending then
      match outs[i]? with
      | some (.ok v) =>
        ⟨st.results.set i (some (.success v)), st.pending.erase i,
          st.hadFailure || healthObs.any (fun b => !b)⟩
      | some (.err e) =>
        ⟨st.results.set i (some (classify_resolved_error tpuIsPreempted e)),
          st.pending.erase i, true⟩
      | none => ⟨st.results, st.pending, st.hadFailure || healthObs.any (fun b => !b)⟩
    else ⟨st.results, st.pending, st.hadFailure || healthObs.any (fun b => !b)⟩

/-- The waiting loop itself: run `step_cycle` while `pending_futures` is
nonempty and no failure has been seen; the schedule list doubles as fuel. -/
def poll_loop {α : Type} (outs : List (FutureOutcome α)) (tpuIsPreempted : Bool)
    (healthObs : List Bool) : List (Option Nat) → LoopState α → LoopState α
  | [], st => st
  | sched :: rest, st =>
    if st.pending.isEmpty || st.hadFailure then st
    else poll_loop outs tpuIsPreempted healthObs rest (step_cycle outs tpuIsPreempted healthObs sched st)

/-- The proactive-cancellation block (ray_tpu.py lines 604-621): after a
failure, every still-pending future is force-cancelled and its index is filled
with `TpuCancelled`.  (The code guards on `pending_futures` being nonempty;
folding over an empty pending list is the same no-op.) -/
def fill_cancelled {α : Type} (st : LoopState α) : List (Option (TpuRunResult α)) :=
  if st.hadFailure then
    st.pending.foldl (fun res i => res.set i (some .cancelled)) st.results
  else st.results

/-- The `assert` at line 646: result processing requires every index to hold an
outcome; a leftover `None` is an invariant violation, modelled as `none`. -/
def collect_results {α : Type} : List (Option (TpuRunResult α)) → Option (List (TpuRunResult α))
  | [] => some []
  | none :: _ => none
  | some r :: rest => (collect_results rest).map (r :: ·)

/-- The `tpu_results` list of one attempt, after the waiting loop and the
cancellation fill-in, starting from the freshly dispatched futures `outs`. -/
def attempt_results {α : Type} (outs : List (FutureOutcome α)) (tpuIsPreempted : Bool)
    (healthObs : List Bool) (sched : List (Option Nat)) : List (Option (TpuRunResult α)) :=
  fill_cancelled (poll_loop outs tpuIsPreempted healthObs sched (init_state α outs.length))

/-- One attempt's decision (ray_tpu.py lines 563-672), `none` when the
`assert` at line 646 would fire. -/
def attempt_decision {α : Type} (outs : List (FutureOutcome α)) (tpuIsPreempted : Bool)
    (healthObs : List Bool) (sched : List (Option Nat)) : Option (AttemptDecision α) :=
  (collect_results (attempt_results outs tpuIsPreempted healthObs sched)).map process_results

/-- One slice of the current pool as the attempt sees it: what its
`healthy.remote()` returns, and the eventual outcomes of its per-host futures
in dispatch order. -/
structure SliceSpec (α : Type) where
  healthyNow : Bool
  hostOutcomes : List (FutureOutcome α)
deriving DecidableEq, Repr

/-- The health futures created before the waiting loop (ray_tpu.py line 570):
`actor_health_futures = [tpu_slice.actor.healthy.remote() for actor in slice_pool]`.
The comprehension binds `actor` but uses `tpu_slice`, the loop variable left
over from the dispatch loop at line 548, i.e. the LAST slice of the pool; the
futures are created once, so every later `ray.get(actor_health_futures)`
returns the same resolved values. -/
def actor_health_futures {α : Type} (slicePool : List (SliceSpec α)) : List Bool :=
  match slicePool.getLast? with
  | some lastSlice => slicePool.map (fun _ => lastSlice.healthyNow)
  | none => []

/-- One whole attempt of `run_on_pod_ray` after a successful scale: flatten the
per-host futures of every slice in dispatch order (lines 544-561), run the
waiting loop with the health observations the code actually uses, fill in
cancellations, and decide. -/
def run_attempt {α : Type} (slicePool : List (SliceSpec α)) (tpuIsPreempted : Bool)
    (sched : List (Option Nat)) : Option (AttemptDecision α) :=
  attempt_decision ((slicePool.map SliceSpec.hostOutcomes).flatten) tpuIsPreempted
    (actor_health_futures slicePool) sched

/-! ### The outer retry loop and its budgets (ray_tpu.py lines 500-691) -/

/-- Opaque identity of one recorded underlying error (an entry of `problems`). -/
abbrev Problem := Nat

/-- Summary of one attempt as the retry loop consumes it: the scale step raised
(counted as a preemption, lines 531-538), or the attempt ended with
`any_preempted` / `any_failed` / only-cancelled / all-success, carrying the
`problems` recorded during that attempt (the list is cleared at the top of
every attempt, line 528). -/
inductive AttemptOutcome (α : Type) where
  | scaleFail (p : Problem)
  | preemptedA (probs : List Problem)
  | failedA (probs : List Problem)
  | cancelledA
  | successA (results : List α)
deriving DecidableEq, Repr

/-- The terminal errors of `run_on_pod_ray` (ray_tpu.py lines 682-691):
`RuntimeError("TPU job was preempted too many times") from problem`, a re-raise
of the first recorded problem, `RuntimeError("TPU job failed too many times")`
when no problem was recorded, or the defensive unknown-error raise. -/
inductive RunError where
  | preemptedTooMany (cause : Option Problem)
  | reraisedProblem (p : Problem)
  | failedTooManySynthetic
  | unknownError (cause : Option Problem)
deriving DecidableEq, Repr

/-- What the retry loop produces: the success value, a raise, or (model
artifact) fuel exhaustion before the loop settled. -/
inductive LoopResult (α : Type) where
  | success (results : List α)
  | raised (e : RunError)
  | fuelOut
deriving DecidableEq, Repr

/-- Negation of the `while num_failures <= max_retries_failure and
num_preemptions <= max_retries_preemption` guard (ray_tpu.py line 525). -/
def over_budget (maxF maxP nF nP : Nat) : Bool :=
  !(decide (nF ≤ maxF) && decide (nP ≤ maxP))

/-- The post-loop raise logic (ray_tpu.py lines 682-691), with
`problem = problems[0] if problems else None`: the preempted branch checks
`num_preemptions > max_retries_preemption`, the failed branch checks
`num_failures >= max_retries_failure` and runs
`raise problem or RuntimeError("TPU job failed too many times")`. -/
def exhaust_raise (maxF maxP nF nP : Nat) (probs : List Problem) : RunError :=
  if maxP < nP then .preemptedTooMany probs.head?
  else if maxF ≤ nF then
    match probs.head? with
    | some p => .reraisedProblem p
    | none => .failedTooManySynthetic
  else .unknownError probs.head?

/-- The `problems` list one attempt leaves behind (cleared at the top of the
attempt, then appended to). -/
def attempt_probs {α : Type} : AttemptOutcome α → List Problem
  | .scaleFail p => [p]
  | .preemptedA ps => ps
  | .failedA ps => ps
  | .cancelledA => []
  | .successA _ => []

/-- The retry loop of `run_on_pod_ray` (ray_tpu.py lines 525-691) over a
stream of attempt summaries: check the budget guard, run the next attempt,
update `num_failures` / `num_preemptions` / `problems` per its outcome, and on
guard failure perform the post-loop raise.  `fuel` only bounds the number of
attempts the model unrolls. -/
def retry_loop {α : Type} (attempts : Nat → AttemptOutcome α) (maxF maxP : Nat) :
    Nat → Nat → Nat → Nat → List Problem → LoopResult α
  | 0, _, nF, nP, probs =>
    if over_budget maxF maxP nF nP then .raised (exhaust_raise maxF maxP nF nP probs)
    else .fuelOut
  | fuel + 1, k, nF, nP, probs =>
    if over_budget maxF maxP nF nP then .raised (exhaust_raise maxF maxP nF nP probs)
    else
      match attempts k with
      | .scaleFail p => retry_loop attempts maxF maxP fuel (k + 1) nF (nP + 1) [p]
      | .preemptedA ps => retry_loop attempts maxF maxP fuel (k + 1) nF (nP + 1) ps
      | .failedA ps => retry_loop attempts maxF maxP fuel (k + 1) (nF + 1) nP ps
      | .cancelledA => retry_loop attempts maxF maxP fuel (k + 1) nF nP []
      | .successA rs => .success rs

/-- True for the attempt kinds that increment `num_preemptions`: a scale
exception (line 537) or an attempt with `any_preempted` (line 652). -/
def is_preemption_attempt {α : Type} : AttemptOutcome α → Bool
  | .scaleFail _ => true
  | .preemptedA _ => true
  | _ => false

/-- True for the attempt kind that increments `num_failures` (line 664). -/
def is_failure_attempt {α : Type} : AttemptOutcome α → Bool
  | .failedA _ => true
  | _ => false

/-- True for a fully successful attempt (the `return` at line 672). -/
def is_success_attempt {α : Type} : AttemptOutcome α → Bool
  | .successA _ => true
  | _ => false

/-- Value of `num_preemptions` after the first `k` attempts. -/
def countP {α : Type} (attempts : Nat → AttemptOutcome α) (k : Nat) : Nat :=
  ((List.range k).filter (fun i => is_preemption_attempt (attempts i))).length

/-- Value of `num_failures` after the first `k` attempts. -/
def countF {α : Type} (attempts : Nat → AttemptOutcome α) (k : Nat) : Nat :=
  ((List.range k).filter (fun i => is_failure_attempt (attempts i))).length

/-- The `problems` list after the first `k` attempts (the list the last run
attempt left behind; empty before any attempt ran). -/
def last_attempt_probs {α : Type} (attempts : Nat → AttemptOutcome α) : Nat → List Problem
  | 0 => []
  | k + 1 => attempt_probs (attempts k)

/-! ### Entry validation (ray_tpu.py lines 457-522) -/

/-- The shape of the `remote_fn` argument as `run_on_pod_ray` inspects it
(ray_tpu.py lines 513-520): a `FunctionNode` (rejected), a plain function
(wrapped with `max_calls=1`), or a `RemoteFunction` with / without `max_calls`
set. -/
inductive RemoteFnKind where
  | functionNode
  | plainFunction
  | remoteFnWithMaxCalls
  | remoteFnNoMaxCalls
deriving DecidableEq, Repr

/-- The `ValueError`s raised before any pool work starts. -/
inductive EntryError where
  | invalidNumSlices
  | invalidRemoteFn
deriving DecidableEq, Repr

/-- `run_on_pod_ray` (ray_tpu.py lines 488-691): the `num_slices <= 0` guard at
line 500 fires before the `remote_fn` checks and before the
`SlicePoolManager` is constructed at line 522.  The boolean in the result
records whether the pool manager was created (i.e. whether any pool state was
touched); the retry loop itself is `retry_loop` over the attempt stream. -/
def run_on_pod_ray_model {α : Type} (numSlices : Int) (fnKind : RemoteFnKind)
    (maxP maxF : Nat) (attempts : Nat → AttemptOutcome α) (fuel : Nat) :
    Except EntryError (LoopResult α) × Bool :=
  if numSlices ≤ 0 then (.error .invalidNumSlices, false)
  else
    match fnKind with
    | .functionNode => (.error .invalidRemoteFn, false)
    | .remoteFnNoMaxCalls => (.error .invalidRemoteFn, false)
    | _ => (.ok (retry_loop attempts maxF maxP fuel 0 0 0 []), true)

/-- `run_on_pod` (ray_tpu.py lines 457-484): the same `num_slices <= 0` guard
at line 481, raised before `run_on_pod_ray` is even dispatched. -/
def run_on_pod_model {α : Type} (numSlices : Int) (fnKind : RemoteFnKind)
    (maxP maxF : Nat) (attempts : Nat → AttemptOutcome α) (fuel : Nat) :
    Except EntryError (LoopResult α) × Bool :=
  if numSlices ≤ 0 then (.error .invalidNumSlices, false)
  else run_on_pod_ray_model numSlices fnKind maxP maxF attempts fuel

/-! ### Proof-side descriptions of waiting-loop states -/

/-- Structural invariant of the waiting loop: `tpu_results` has one slot per
dispatched future, the pending indices are distinct and in range, a pending
index still holds `None`, and a non-pending index holds an outcome. -/
def StateInv {α : Type} (outs : List (FutureOutcome α)) (st : LoopState α) : Prop :=
  st.results.length = outs.length ∧
  st.pending.Nodup ∧
  (∀ i ∈ st.pending, i < outs.length) ∧
  (∀ i, i < outs.length → i ∈ st.pending → st.results[i]? = some none) ∧
  (∀ i, i < outs.length → i ∉ st.pending → ∃ r, st.results[i]? = some (some r))

/-- A waiting-loop state in which nothing has gone wrong yet: the invariant
holds, no failure was flagged, and every resolved index was a success recorded
at its own dispatch index. -/
def GoodState {α : Type} (outs : List (FutureOutcome α)) (st : LoopState α) : Prop :=
  StateInv outs st ∧ st.hadFailure = false ∧
  (∀ i, i < outs.length → i ∉ st.pending →
    ∃ v, outs[i]? = some (.ok v) ∧ st.results[i]? = some (some (.success v)))

/-- The claimed post-state of an attempt in which future `j` resolved with an
application error: every dispatch index holds exactly one outcome, index `j`
holds the classified error, every other index is either `TpuCancelled` (it was
still pending when the failure hit) or its own recorded success, and the
attempt moves the counters by exactly one failure and zero preemptions. -/
def C4Post {α : Type} (outs : List (FutureOutcome α)) (tpuIsPreempted : Bool)
    (healthObs : List Bool) (sched : List (Option Nat)) (j : Nat) (e : RemoteError) : Prop :=
  (∀ i, i < outs.length →
    ∃ r, (attempt_results outs tpuIsPreempted healthObs sched)[i]? = some (some r)) ∧
  (attempt_results outs tpuIsPreempted healthObs sched)[j]?
      = some (some (classify_resolved_error tpuIsPreempted e)) ∧
  (∀ i, i < outs.length → i ≠ j →
    (attempt_results outs tpuIsPreempted healthObs sched)[i]? = some (some .cancelled) ∨
    ∃ v, outs[i]? = some (FutureOutcome.ok v) ∧
      (attempt_results outs tpuIsPreempted healthObs sched)[i]? = some (some (.success v))) ∧
  (attempt_decision outs tpuIsPreempted healthObs sched).map counter_delta = some (1, 0)

end RayTpu

namespace RayTpu

/-! ## Helper lemmas about the outcome aggregation -/

/-- Folding `agg_step` can only turn `any_preempted` on, and does so exactly
when a `TpuPreempted` or `TpuFailed` entry is present. -/
theorem aux_agg_anyPreempted {α : Type} (l : List (TpuRunResult α)) (a : OutcomeAgg α) :
    (l.foldl agg_step a).anyPreempted = (a.anyPreempted || l.any isPreemptedLike) := by
  induction l generalizing a with
  | nil => simp
  | cons r rest ih =>
    cases r <;> simp [agg_step, isPreemptedLike, ih, Bool.or_assoc]

/-- Folding `agg_step` turns `any_failed` on exactly when a `TpuRunError`
entry is present. -/
theorem aux_agg_anyFailed {α : Type} (l : List (TpuRunResult α)) (a : OutcomeAgg α) :
    (l.foldl agg_step a).anyFailed = (a.anyFailed || l.any isRunErrorKind) := by
  induction l generalizing a with
  | nil => simp
  | cons r rest ih =>
    cases r <;> simp [agg_step, isRunErrorKind, ih, Bool.or_assoc]

/-- Folding `agg_step` over a list of successes appends their values, in
order, to `out_results` and touches no flag. -/
theorem aux_agg_success {α : Type} (vs : List α) (a : OutcomeAgg α) :
    (vs.map TpuRunResult.success).foldl agg_step a = { a with outResults := a.outResults ++ vs } := by
  induction vs generalizing a with
  | nil => simp
  | cons v rest ih => simp [agg_step, ih]

/-- Processing an all-success result list returns the values in order. -/
theorem aux_process_success {α : Type} (vs : List α) :
    process_results (vs.map TpuRunResult.success) = .done vs := by
  simp [process_results, aux_agg_success, emptyAgg]

/-- C3: the failure classifier maps node death, actor unavailability, actor
death and worker crashes to Preempted; a generic task error to Preempted when
the live platform preemption signal is true, and otherwise to Preempted
exactly when the error indicates a timeout and to ApplicationError
(`TpuRunError`) when it does not; an unrecognized error type defaults to
ApplicationError. -/
theorem c3_classifier_cases : ∀ (sig ct mt : Bool),
    handle_ray_error (α := Nat) sig .nodeDied = .preempted .nodeDied ∧
    handle_ray_error (α := Nat) sig .actorUnavailable = .preempted .actorUnavailable ∧
    handle_ray_error (α := Nat) sig .actorDied = .preempted .actorDied ∧
    handle_ray_error (α := Nat) sig .workerCrashed = .preempted .workerCrashed ∧
    handle_ray_error (α := Nat) true (.rayTask ct mt) = .preempted (.rayTask ct mt) ∧
    handle_ray_error (α := Nat) false (.rayTask ct mt)
      = (if ct || mt then .preempted (.rayTask ct mt) else .runError (.rayTask ct mt)) ∧
    handle_ray_error (α := Nat) sig .otherRayError = .runError .otherRayError := by
  decide

/-- C2 counterexample: a scheduler/system-level error (`RaySystemError`) is
classified as `TpuRunError` — not as the InfrastructureFailure kind
(`TpuFailed`) — and the aggregation of an attempt containing it increments the
failure counter, not the preemption counter. -/
theorem c2_system_error_counterexample :
    handle_ray_error (α := Nat) false .raySystem = .runError .raySystem ∧
    handle_ray_error (α := Nat) false .raySystem ≠ .failed .raySystem ∧
    counter_delta (process_results [(TpuRunResult.runError .raySystem : TpuRunResult Nat)]) = (1, 0) := by
  decide

/-- C2 amended: the classifier never produces the InfrastructureFailure kind
(`TpuFailed`) at all; a `RaySystemError` is classified `TpuRunError` and hence
counted as a failure; and whenever a `TpuFailed` outcome is present in an
attempt's results the aggregation does fold it into the preemption counter. -/
theorem c2_system_error_amended :
    (∀ (sig : Bool) (e : RemoteError), isFailedKind (handle_ray_error (α := Nat) sig e) = false) ∧
    (∀ sig : Bool, handle_ray_error (α := Nat) sig .raySystem = .runError .raySystem) ∧
    (∀ (l : List (TpuRunResult Nat)) (e : RemoteError),
      TpuRunResult.failed e ∈ l → counter_delta (process_results l) = (0, 1)) := by
  refine ⟨?_, by decide, ?_⟩
  · intro sig e
    cases e <;> cases sig <;> first
      | rfl
      | (rename_i ct mt; cases ct <;> cases mt <;> rfl)
  · intro l e hmem
    have hp : l.any isPreemptedLike = true := List.any_eq_true.mpr ⟨_, hmem, rfl⟩
    simp [process_results, counter_delta, aux_agg_anyPreempted, emptyAgg, hp]

/-- C2 witness: at a concrete attempt containing a `TpuFailed` outcome, the
aggregation increments the preemption counter. -/
theorem c2_system_error_amended_witness :
    counter_delta (process_results [(TpuRunResult.failed .raySystem : TpuRunResult Nat)]) = (0, 1) :=
  c2_system_error_amended.2.2 [TpuRunResult.failed .raySystem] .raySystem (by simp)

/-- C1 (code bug witness): an attempt over two slices in which slice 0 reports
unhealthy from the start and both futures succeed.  The claim (and spec) say
the polling loop health-checks every slice each cycle, so slice 0's
unhealthiness should stop waiting and retry the attempt; the code builds its
health futures from the leftover dispatch-loop variable (the last slice) once
before the loop, never observes slice 0, and returns success. -/
theorem c1_unhealthy_slice_missed :
    run_attempt (α := Nat) [⟨false, [.ok 1]⟩, ⟨true, [.ok 2]⟩] false [some 0, some 1]
      = some (.done [1, 2]) := by
  decide

/-- C10: for any non-positive `num_slices`, both `run_on_pod` and
`run_on_pod_ray` raise `ValueError` immediately; the flag in the result
records that the `SlicePoolManager` was never constructed, so no pool state is
touched. -/
theorem c10_num_slices_guard {α : Type} (numSlices : Int) (fnKind : RemoteFnKind)
    (maxP maxF : Nat) (attempts : Nat → AttemptOutcome α) (fuel : Nat)
    (h : numSlices ≤ 0) :
    run_on_pod_model numSlices fnKind maxP maxF attempts fuel
        = (.error .invalidNumSlices, false) ∧
    run_on_pod_ray_model numSlices fnKind maxP maxF attempts fuel
        = (.error .invalidNumSlices, false) := by
  constructor <;> simp [run_on_pod_model, run_on_pod_ray_model, h]

/-- C10 witness: the guard fires at `num_slices = 0`. -/
theorem c10_num_slices_guard_witness :
    run_on_pod_model (α := Nat) 0 .plainFunction 5 5 (fun _ => .cancelledA) 3
        = (.error .invalidNumSlices, false) ∧
    run_on_pod_ray_model (α := Nat) 0 .plainFunction 5 5 (fun _ => .cancelledA) 3
        = (.error .invalidNumSlices, false) :=
  c10_num_slices_guard 0 .plainFunction 5 5 (fun _ => .cancelledA) 3 (by decide)

/-- C7: the coordination environment of the slice at position `i` is nonempty
exactly when the slice pool has more than one member, and in that case it maps
the coordinator address to the first slice's IP with the default rendezvous
port 8081, the slice count to the pool size, and this slice's ordinal to `i`
(so slices 0..k-1 get ordinals 0..k-1); a single-slice pool gets the empty
environment. -/
theorem c7_coordination_env (pool : List SliceInfo) (i : Nat) (h : SliceInfo)
    (h0 : pool[0]? = some h) (hi : i < pool.length) :
    mxla_env_for_slice pool i =
      if pool.length > 1 then
        [("MEGASCALE_COORDINATOR_ADDRESS", h.ipAddress ++ ":" ++ toString (8081 : Nat)),
         ("MEGASCALE_NUM_SLICES", toString pool.length),
         ("MEGASCALE_PORT", toString (8081 : Nat)),
         ("MEGASCALE_SLICE_ID", toString i)]
      else [] := by
  by_cases hl : pool.length > 1
  · simp [mxla_env_for_slice, head_slice_info, hl, h0, multislice_info_to_env_vars,
      multislice_info_from_head]
  · simp [mxla_env_for_slice, head_slice_info, hl]

/-- C7 witness: a two-slice pool, ordinal 1. -/
theorem c7_coordination_env_witness :
    mxla_env_for_slice [⟨"slice-0", 1, "10.0.0.1", 4⟩, ⟨"slice-1", 1, "10.0.0.2", 4⟩] 1 =
      if [(⟨"slice-0", 1, "10.0.0.1", 4⟩ : SliceInfo), ⟨"slice-1", 1, "10.0.0.2", 4⟩].length > 1 then
        [("MEGASCALE_COORDINATOR_ADDRESS", "10.0.0.1" ++ ":" ++ toString (8081 : Nat)),
         ("MEGASCALE_NUM_SLICES",
           toString [(⟨"slice-0", 1, "10.0.0.1", 4⟩ : SliceInfo), ⟨"slice-1", 1, "10.0.0.2", 4⟩].length),
         ("MEGASCALE_PORT", toString (8081 : Nat)),
         ("MEGASCALE_SLICE_ID", toString 1)]
      else [] :=
  c7_coordination_env [⟨"slice-0", 1, "10.0.0.1", 4⟩, ⟨"slice-1", 1, "10.0.0.2", 4⟩] 1
    ⟨"slice-0", 1, "10.0.0.1", 4⟩ rfl (by decide)

end RayTpu

namespace RayTpu

/-! ## Helper lemmas about the resource pool -/

/-- Sequentially stopping members whose stop errors are all absorbed returns
without raising. -/
theorem aux_stop_members_ok (pool : List PoolMember)
    (h : ∀ m ∈ pool, stop_absorbs m.stop = true) : stop_members pool = .ok () := by
  induction pool with
  | nil => rfl
  | cons m rest ih =>
    rw [stop_members, if_pos (h m (List.mem_cons_self _ _))]
    exact ih fun x hx => h x (List.mem_cons_of_mem _ hx)

/-- A successful prune returns exactly the members that passed the health
check. -/
theorem aux_remove_unhealthy_ok (pool l : List PoolMember)
    (h : remove_unhealthy_members pool = .ok l) : l = pool.filter member_checks_healthy := by
  unfold remove_unhealthy_members at h
  cases hs : stop_members (pool.filter (fun m => !member_checks_healthy m)) with
  | ok u => cases u; rw [hs] at h; injection h with h; exact h.symm
  | error u => cases u; rw [hs] at h; cases h

/-- The creation loop only appends: its result is at least the starting pool
and at most the starting pool plus one member per created actor. -/
theorem aux_add_loop_length (l : List NewActor) (pool out : List PoolMember)
    (h : add_loop pool l = .ok out) :
    pool.length ≤ out.length ∧ out.length ≤ pool.length + l.length := by
  induction l generalizing pool with
  | nil =>
    rw [add_loop] at h
    injection h with h
    subst h
    omega
  | cons a rest ih =>
    rw [add_loop] at h
    by_cases hr : a.reports = true
    · rw [if_pos hr] at h
      have hb := ih _ h
      have hl2 : (pool ++ [a.member]).length = pool.length + 1 := by simp
      rw [hl2] at hb
      simp only [List.length_cons]
      omega
    · rw [if_neg hr] at h
      by_cases hs : stop_absorbs a.failStop = true
      · rw [if_pos hs] at h
        have hb := ih _ h
        simp only [List.length_cons]
        omega
      · rw [if_neg hs] at h
        cases h

/-- C8 counterexample: a pool that already holds two healthy members scaled to
one succeeds (the add step skips) but leaves the pool with two members, not
exactly one as the claim states. -/
theorem c8_scale_counterexample :
    scale_actor_pool [⟨.healthy, .clean⟩, ⟨.healthy, .clean⟩]
        (fun _ => ⟨true, .clean, ⟨.healthy, .clean⟩⟩) 1
      = .ok [⟨.healthy, .clean⟩, ⟨.healthy, .clean⟩] ∧
    [(⟨.healthy, .clean⟩ : PoolMember), ⟨.healthy, .clean⟩].length ≠ 1 :=
  ⟨rfl, by decide⟩

/-- C8 amended: when `scale_actor_pool(n)` returns successfully the pool holds
exactly `max n h` members, where `h` is the number of members that passed the
health check — so exactly `n` whenever at most `n` members were healthy, and
more than `n` when the pool started with more than `n` healthy members (the
add step skips); and an immediate second call on the resulting pool, while it
is still all-healthy, is a no-op that creates zero new workers (it returns the
pool unchanged). -/
theorem c8_scale_amended (pool : List PoolMember) (supply : Nat → NewActor) (desired : Nat)
    (P : List PoolMember) (h : scale_actor_pool pool supply desired = .ok P) :
    P.length = max desired (pool.filter member_checks_healthy).length ∧
    (P.all member_checks_healthy = true → scale_actor_pool P supply desired = .ok P) := by
  unfold scale_actor_pool at h
  cases hrem : remove_unhealthy_members pool with
  | error u => cases u; rw [hrem] at h; cases h
  | ok healthy =>
    rw [hrem] at h
    have hhealthy : healthy = pool.filter member_checks_healthy :=
      aux_remove_unhealthy_ok pool healthy hrem
    subst hhealthy
    have h2 : add_members_to_actor_pool (pool.filter member_checks_healthy) supply desired
        = .ok P := h
    clear h
    rw [add_members_to_actor_pool] at h2
    have hlen : P.length = max desired (pool.filter member_checks_healthy).length := by
      by_cases hge : (pool.filter member_checks_healthy).length ≥ desired
      · rw [if_pos hge] at h2
        injection h2 with h2
        subst h2
        omega
      · rw [if_neg hge] at h2
        cases hadd : add_loop (pool.filter member_checks_healthy)
            ((List.range (desired - (pool.filter member_checks_healthy).length)).map supply) with
        | error u => cases u; rw [hadd] at h2; cases h2
        | ok pool2 =>
          rw [hadd] at h2
          have h3 : (if pool2.length < desired then
                (Except.error ScaleError.couldNotAcquire : Except ScaleError (List PoolMember))
              else Except.ok pool2) = Except.ok P := h2
          clear h2
          by_cases hlt : pool2.length < desired
          · rw [if_pos hlt] at h3; cases h3
          · rw [if_neg hlt] at h3
            injection h3 with h3
            subst h3
            have hb := aux_add_loop_length _ _ _ hadd
            simp only [List.length_map, List.length_range] at hb
            omega
    refine ⟨hlen, ?_⟩
    intro hall
    have hPge : P.length ≥ desired := by omega
    have hallmem : ∀ m ∈ P, member_checks_healthy m = true := by
      intro m hm
      exact List.all_eq_true.mp hall m hm
    have hfilterP : P.filter member_checks_healthy = P := List.filter_eq_self.mpr hallmem
    have hfilterNone : P.filter (fun m => !member_checks_healthy m) = [] := by
      rw [List.filter_eq_nil_iff]
      intro m hm
      simp [hallmem m hm]
    have hrem2 : remove_unhealthy_members P = .ok P := by
      unfold remove_unhealthy_members
      rw [hfilterNone, hfilterP]
      rfl
    have hgoal : add_members_to_actor_pool P supply desired = .ok P := by
      rw [add_members_to_actor_pool, if_pos hPge]
    show scale_actor_pool P supply desired = .ok P
    unfold scale_actor_pool
    rw [hrem2]
    exact hgoal

/-- C8 witness: a one-healthy-member pool scaled to 2 succeeds with exactly
max 2 1 = 2 members, and the immediate second call is a no-op. -/
theorem c8_scale_amended_witness :
    [(⟨.healthy, .clean⟩ : PoolMember), ⟨.healthy, .clean⟩].length
        = max 2 ([(⟨.healthy, .clean⟩ : PoolMember)].filter member_checks_healthy).length ∧
    ([(⟨.healthy, .clean⟩ : PoolMember), ⟨.healthy, .clean⟩].all member_checks_healthy = true →
      scale_actor_pool [⟨.healthy, .clean⟩, ⟨.healthy, .clean⟩]
          (fun _ => ⟨true, .clean, ⟨.healthy, .clean⟩⟩) 2
        = .ok [⟨.healthy, .clean⟩, ⟨.healthy, .clean⟩]) :=
  c8_scale_amended [⟨.healthy, .clean⟩] (fun _ => ⟨true, .clean, ⟨.healthy, .clean⟩⟩) 2
    [⟨.healthy, .clean⟩, ⟨.healthy, .clean⟩] rfl

/-- C9 counterexample: draining a pool whose single member's stop raises an
exception that `_stop_actor` does not absorb (e.g. an `ActorUnavailableError`,
which is not in its `except` clauses) itself raises, so `drain_actor_pool` is
not raise-free. -/
theorem c9_drain_counterexample :
    drain_actor_pool [⟨.healthy, .unexpectedError⟩] = .error () := rfl

/-- C9 amended: `drain_actor_pool` never raises and leaves the pool empty
provided every member's stop fails only in the ways `_stop_actor` absorbs
(actor already dead, or teardown timeout); in general an unexpected stop
exception propagates.  It is safe on an empty pool and idempotent: after a
successful drain the pool is empty and draining the empty pool succeeds
again. -/
theorem c9_drain_amended (pool : List PoolMember)
    (h : ∀ m ∈ pool, stop_absorbs m.stop = true) :
    drain_actor_pool pool = .ok [] ∧ drain_actor_pool ([] : List PoolMember) = .ok [] := by
  constructor
  · unfold drain_actor_pool
    rw [aux_stop_members_ok pool h]
  · rfl

/-- C9 witness: a pool whose members stop via the two absorbed error paths
drains cleanly, and draining again (now-empty pool) also succeeds. -/
theorem c9_drain_amended_witness :
    drain_actor_pool [⟨.healthy, .actorDied⟩, ⟨.unhealthy, .timeout⟩] = .ok [] ∧
    drain_actor_pool ([] : List PoolMember) = .ok [] :=
  c9_drain_amended [⟨.healthy, .actorDied⟩, ⟨.unhealthy, .timeout⟩] (by decide)

end RayTpu

namespace RayTpu

/-! ## Helper lemmas about the retry loop -/

/-- `num_failures` after `k + 1` attempts adds one exactly for a failed
attempt. -/
theorem aux_countF_succ {α : Type} (attempts : Nat → AttemptOutcome α) (k : Nat) :
    countF attempts (k + 1)
      = countF attempts k + (if is_failure_attempt (attempts k) = true then 1 else 0) := by
  simp only [countF, List.range_succ, List.filter_append, List.length_append]
  by_cases hp : is_failure_attempt (attempts k) = true <;> simp [hp]

/-- `num_preemptions` after `k + 1` attempts adds one exactly for a
preemption-counted attempt. -/
theorem aux_countP_succ {α : Type} (attempts : Nat → AttemptOutcome α) (k : Nat) :
    countP attempts (k + 1)
      = countP attempts k + (if is_preemption_attempt (attempts k) = true then 1 else 0) := by
  simp only [countP, List.range_succ, List.filter_append, List.length_append]
  by_cases hp : is_preemption_attempt (attempts k) = true <;> simp [hp]

/-- Running the retry loop from attempt `j` with the counters and problem list
that the first `j` attempts produce: as long as every attempt before `K` stays
inside both budgets and is not a success, and the counters go over budget at
`K`, the loop raises exactly the post-loop error computed from the counters
and the last attempt's problems. -/
theorem aux_retry_reaches {α : Type} (attempts : Nat → AttemptOutcome α) (maxF maxP K : Nat)
    (hover : over_budget maxF maxP (countF attempts K) (countP attempts K) = true)
    (hpre : ∀ k, k < K → over_budget maxF maxP (countF attempts k) (countP attempts k) = false ∧
      is_success_attempt (attempts k) = false) :
    ∀ (fuel j : Nat), j ≤ K → K - j ≤ fuel →
      retry_loop attempts maxF maxP fuel j (countF attempts j) (countP attempts j)
          (last_attempt_probs attempts j)
        = .raised (exhaust_raise maxF maxP (countF attempts K) (countP attempts K)
            (last_attempt_probs attempts K)) := by
  intro fuel
  induction fuel with
  | zero =>
    intro j hj hfuel
    have hjK : j = K := by omega
    subst hjK
    simp [retry_loop, hover]
  | succ fuel ih =>
    intro j hj hfuel
    by_cases hjK : j = K
    · subst hjK
      simp [retry_loop, hover]
    · have hjlt : j < K := by omega
      obtain ⟨hob, hns⟩ := hpre j hjlt
      rw [retry_loop, hob]
      simp only [Bool.false_eq_true, if_false]
      have hprobs : last_attempt_probs attempts (j + 1) = attempt_probs (attempts j) := rfl
      cases hA : attempts j with
      | scaleFail p =>
        have hF : countF attempts (j + 1) = countF attempts j := by
          rw [aux_countF_succ]; simp [hA, is_failure_attempt]
        have hP : countP attempts (j + 1) = countP attempts j + 1 := by
          rw [aux_countP_succ]; simp [hA, is_preemption_attempt]
        have := ih (j + 1) (by omega) (by omega)
        rw [hF, hP, hprobs, hA] at this
        simpa [attempt_probs] using this
      | preemptedA ps =>
        have hF : countF attempts (j + 1) = countF attempts j := by
          rw [aux_countF_succ]; simp [hA, is_failure_attempt]
        have hP : countP attempts (j + 1) = countP attempts j + 1 := by
          rw [aux_countP_succ]; simp [hA, is_preemption_attempt]
        have := ih (j + 1) (by omega) (by omega)
        rw [hF, hP, hprobs, hA] at this
        simpa [attempt_probs] using this
      | failedA ps =>
        have hF : countF attempts (j + 1) = countF attempts j + 1 := by
          rw [aux_countF_succ]; simp [hA, is_failure_attempt]
        have hP : countP attempts (j + 1) = countP attempts j := by
          rw [aux_countP_succ]; simp [hA, is_preemption_attempt]
        have := ih (j + 1) (by omega) (by omega)
        rw [hF, hP, hprobs, hA] at this
        simpa [attempt_probs] using this
      | cancelledA =>
        have hF : countF attempts (j + 1) = countF attempts j := by
          rw [aux_countF_succ]; simp [hA, is_failure_attempt]
        have hP : countP attempts (j + 1) = countP attempts j := by
          rw [aux_countP_succ]; simp [hA, is_preemption_attempt]
        have := ih (j + 1) (by omega) (by omega)
        rw [hF, hP, hprobs, hA] at this
        simpa [attempt_probs] using this
      | successA rs =>
        rw [hA] at hns
        simp [is_success_attempt] at hns

/-- C5: the retry loop runs attempts exactly while both counters are within
their budgets (every attempt before `K` is in budget and the counters first go
over budget at `K`), and on exhaustion it raises `exhaust_raise`: a
"preempted too many times" error carrying the first recorded problem as its
cause when the preemption budget is the one exceeded, otherwise a re-raise of
the first recorded underlying problem, or a synthetic "failed too many times"
error when none was captured.  (`problems` is cleared at the top of every
attempt, so the surfaced problem is the first one recorded by the final
attempt.) -/
theorem c5_budget_exhaustion {α : Type} (attempts : Nat → AttemptOutcome α)
    (maxF maxP K fuel : Nat) (hfuel : K ≤ fuel)
    (hpre : ∀ k, k < K → over_budget maxF maxP (countF attempts k) (countP attempts k) = false ∧
      is_success_attempt (attempts k) = false)
    (hover : over_budget maxF maxP (countF attempts K) (countP attempts K) = true) :
    retry_loop attempts maxF maxP fuel 0 0 0 []
      = .raised (exhaust_raise maxF maxP (countF attempts K) (countP attempts K)
          (last_attempt_probs attempts K)) :=
  aux_retry_reaches attempts maxF maxP K hover hpre fuel 0 (Nat.zero_le K) (by omega)

/-- C5 witness: every attempt fails with problem 7; with a failure budget of 1
the loop raises after attempt 2, re-raising the recorded problem 7 (the
"failed too many times" exhaustion path), within budget before that. -/
theorem c5_budget_exhaustion_witness :
    retry_loop (α := Nat) (fun _ => .failedA [7]) 1 5 5 0 0 0 []
      = .raised (.reraisedProblem 7) :=
  c5_budget_exhaustion (fun _ => .failedA [7]) 1 5 2 5 (by decide) (by decide) (by decide)

end RayTpu

namespace RayTpu

/-! ## Helper lemmas about the waiting loop -/

/-- When every health observation is `True`, the unhealthy scan is negative. -/
theorem aux_any_not_eq_false (l : List Bool) (h : l.all (fun b => b) = true) :
    l.any (fun b => !b) = false := by
  induction l with
  | nil => rfl
  | cons b rest ih =>
    simp only [List.all_cons, Bool.and_eq_true] at h
    simp [List.any_cons, h.1, ih h.2]

/-- The waiting loop does nothing once its guard fails. -/
theorem aux_poll_stop {α : Type} (outs : List (FutureOutcome α)) (sig : Bool)
    (healthObs : List Bool) (sched : List (Option Nat)) (st : LoopState α)
    (h : (st.pending.isEmpty || st.hadFailure) = true) :
    poll_loop outs sig healthObs sched st = st := by
  cases sched with
  | nil => rfl
  | cons s rest =>
    simp only [poll_loop]
    rw [if_pos h]

/-- The waiting loop splits over a concatenated schedule. -/
theorem aux_poll_append {α : Type} (outs : List (FutureOutcome α)) (sig : Bool)
    (healthObs : List Bool) (s1 s2 : List (Option Nat)) :
    ∀ st : LoopState α, poll_loop outs sig healthObs (s1 ++ s2) st
      = poll_loop outs sig healthObs s2 (poll_loop outs sig healthObs s1 st) := by
  induction s1 with
  | nil => intro st; rfl
  | cons x rest ih =>
    intro st
    rw [List.cons_append]
    simp only [poll_loop]
    by_cases h : (st.pending.isEmpty || st.hadFailure) = true
    · rw [if_pos h, if_pos h]
      exact (aux_poll_stop _ _ _ _ _ h).symm
    · rw [if_neg h, if_neg h]
      exact ih _

/-- Filling a list of indices with a fixed value keeps the length. -/
theorem aux_foldl_set_length {β : Type} (idxs : List Nat) (res : List β) (v : β) :
    (idxs.foldl (fun r i => r.set i v) res).length = res.length := by
  induction idxs generalizing res with
  | nil => rfl
  | cons a rest ih => rw [List.foldl_cons, ih, List.length_set]

/-- Filling a list of indices leaves other positions unchanged. -/
theorem aux_foldl_set_not_mem {β : Type} (idxs : List Nat) (res : List β) (v : β) (i : Nat)
    (hi : i ∉ idxs) :
    (idxs.foldl (fun r j => r.set j v) res)[i]? = res[i]? := by
  induction idxs generalizing res with
  | nil => rfl
  | cons a rest ih =>
    rw [List.foldl_cons, ih _ (fun h => hi (List.mem_cons_of_mem _ h)),
      List.getElem?_set_ne (fun h => hi (List.mem_cons.mpr (Or.inl h.symm)))]

/-- Filling a list of indices writes the value at each listed in-range
position. -/
theorem aux_foldl_set_mem {β : Type} (idxs : List Nat) (res : List β) (v : β) (i : Nat)
    (hi : i ∈ idxs) (hlen : i < res.length) :
    (idxs.foldl (fun r j => r.set j v) res)[i]? = some v := by
  induction idxs generalizing res with
  | nil => cases hi
  | cons a rest ih =>
    rw [List.foldl_cons]
    by_cases hm : i ∈ rest
    · exact ih _ hm (by rw [List.length_set]; exact hlen)
    · have hia : i = a := by
        rcases List.mem_cons.mp hi with h | h
        · exact h
        · exact absurd h hm
      subst hia
      rw [aux_foldl_set_not_mem _ _ _ _ hm, List.getElem?_set_self hlen]

/-- A list all of whose members are `some` is the `some`-image of a list. -/
theorem aux_all_some_exists {β : Type} (l : List (Option β)) :
    (∀ x ∈ l, x ≠ none) → ∃ m : List β, l = m.map some := by
  induction l with
  | nil => exact fun _ => ⟨[], rfl⟩
  | cons a rest ih =>
    intro h
    obtain ⟨m, hm⟩ := ih fun x hx => h x (List.mem_cons_of_mem _ hx)
    cases a with
    | none => exact absurd rfl (h none (List.mem_cons_self _ _))
    | some b => exact ⟨b :: m, by rw [hm]; rfl⟩

/-- `collect_results` succeeds on a fully resolved list and strips the
`some`s. -/
theorem aux_collect_map_some {α : Type} (m : List (TpuRunResult α)) :
    collect_results (m.map some) = some m := by
  induction m with
  | nil => rfl
  | cons r rest ih => simp [collect_results, ih]

/-- A `TpuRunError` outcome is not one of the preemption-like kinds. -/
theorem aux_runError_not_preemptedLike {α : Type} (r : TpuRunResult α)
    (h : isRunErrorKind r = true) : isPreemptedLike r = false := by
  cases r <;> simp_all [isRunErrorKind, isPreemptedLike]

/-- The freshly initialized waiting-loop state is good. -/
theorem aux_good_init {α : Type} (outs : List (FutureOutcome α)) :
    GoodState outs (init_state α outs.length) := by
  refine ⟨⟨?_, ?_, ?_, ?_, ?_⟩, rfl, ?_⟩
  · simp [init_state]
  · exact List.nodup_range _
  · intro i hi
    simpa [init_state] using hi
  · intro i hi _
    show (List.replicate outs.length (none : Option (TpuRunResult α)))[i]? = some none
    rw [List.getElem?_replicate, if_pos hi]
  · intro i hi hnot
    exact absurd (List.mem_range.mpr hi) hnot
  · intro i hi hnot
    exact absurd (List.mem_range.mpr hi) hnot

/-- One waiting-loop cycle preserves goodness as long as the resolved future
(if any) is a success and all health observations are `True`; moreover a
pending future that cannot resolve to a success stays pending. -/
theorem aux_good_step {α : Type} (outs : List (FutureOutcome α)) (sig : Bool)
    (healthObs : List Bool) (sched : Option Nat) (st : LoopState α)
    (hg : GoodState outs st)
    (hh : healthObs.all (fun b => b) = true)
    (hs : ∀ i, sched = some i → i ∈ st.pending → ∃ v, outs[i]? = some (FutureOutcome.ok v)) :
    GoodState outs (step_cycle outs sig healthObs sched st) ∧
    (∀ j, j ∈ st.pending → (∀ v, outs[j]? ≠ some (FutureOutcome.ok v)) →
      j ∈ (step_cycle outs sig healthObs sched st).pending) := by
  obtain ⟨⟨hlen, hnd, hmlt, hpn, hrs⟩, hfail, hgood⟩ := hg
  have hany : healthObs.any (fun b => !b) = false := aux_any_not_eq_false _ hh
  cases sched with
  | none =>
    constructor
    · exact ⟨⟨hlen, hnd, hmlt, hpn, hrs⟩, by simp [step_cycle, hfail, hany], hgood⟩
    · intro j hj _
      exact hj
  | some i =>
    by_cases hmem : i ∈ st.pending
    · obtain ⟨v, hv⟩ := hs i rfl hmem
      have hstep : step_cycle outs sig healthObs (some i) st
          = ⟨st.results.set i (some (.success v)), st.pending.erase i,
              st.hadFailure || healthObs.any (fun b => !b)⟩ := by
        simp [step_cycle, hmem, hv]
      rw [hstep]
      constructor
      · refine ⟨⟨?_, ?_, ?_, ?_, ?_⟩, ?_, ?_⟩
        · simpa [List.length_set] using hlen
        · exact hnd.erase i
        · intro j hj
          exact hmlt j (List.mem_of_mem_erase hj)
        · intro j hjlt hj
          have hj2 := (List.Nodup.mem_erase_iff hnd).mp hj
          rw [List.getElem?_set_ne (Ne.symm hj2.1)]
          exact hpn j hjlt hj2.2
        · intro j hjlt hj
          by_cases hji : j = i
          · subst hji
            rw [List.getElem?_set_self (hlen ▸ hjlt)]
            exact ⟨_, rfl⟩
          · have hjp : j ∉ st.pending := fun hm2 => hj ((List.mem_erase_of_ne hji).mpr hm2)
            rw [List.getElem?_set_ne (fun h => hji h.symm)]
            exact hrs j hjlt hjp
        · simp [hfail, hany]
        · intro j hjlt hj
          by_cases hji : j = i
          · subst hji
            rw [List.getElem?_set_self (hlen ▸ hjlt)]
            exact ⟨v, hv, rfl⟩
          · have hjp : j ∉ st.pending := fun hm2 => hj ((List.mem_erase_of_ne hji).mpr hm2)
            rw [List.getElem?_set_ne (fun h => hji h.symm)]
            exact hgood j hjlt hjp
      · intro j hj hnok
        have hji : j ≠ i := by
          intro h
          subst h
          exact hnok v hv
        exact (List.mem_erase_of_ne hji).mpr hj
    · have hstep : step_cycle outs sig healthObs (some i) st
          = ⟨st.results, st.pending, st.hadFailure || healthObs.any (fun b => !b)⟩ := by
        simp [step_cycle, hmem]
      rw [hstep]
      exact ⟨⟨⟨hlen, hnd, hmlt, hpn, hrs⟩, by simp [hfail, hany], hgood⟩, fun j hj _ => hj⟩

/-- The waiting loop preserves goodness over a schedule whose entries only
resolve success futures, under all-healthy observations; a pending future that
cannot resolve to a success stays pending. -/
theorem aux_good_poll {α : Type} (outs : List (FutureOutcome α)) (sig : Bool)
    (healthObs : List Bool) (hh : healthObs.all (fun b => b) = true) :
    ∀ (sched : List (Option Nat)) (st : LoopState α), GoodState outs st →
    (∀ i, some i ∈ sched → i < outs.length → ∃ v, outs[i]? = some (FutureOutcome.ok v)) →
    GoodState outs (poll_loop outs sig healthObs sched st) ∧
    (∀ j, j ∈ st.pending → (∀ v, outs[j]? ≠ some (FutureOutcome.ok v)) →
      j ∈ (poll_loop outs sig healthObs sched st).pending) := by
  intro sched
  induction sched with
  | nil =>
    intro st hg _
    exact ⟨hg, fun j hj _ => hj⟩
  | cons s rest ih =>
    intro st hg hs
    by_cases hstop : (st.pending.isEmpty || st.hadFailure) = true
    · rw [aux_poll_stop _ _ _ _ _ hstop]
      exact ⟨hg, fun j hj _ => hj⟩
    · simp only [poll_loop]
      rw [if_neg hstop]
      have hs1 : ∀ i, s = some i → i ∈ st.pending →
          ∃ v, outs[i]? = some (FutureOutcome.ok v) := by
        intro i hsi hmem
        refine hs i ?_ (hg.1.2.2.1 i hmem)
        rw [hsi]
        exact List.mem_cons_self _ _
      obtain ⟨hg2, hkeep2⟩ := aux_good_step outs sig healthObs s st hg hh hs1
      have hs2 : ∀ i, some i ∈ rest → i < outs.length →
          ∃ v, outs[i]? = some (FutureOutcome.ok v) :=
        fun i hi => hs i (List.mem_cons_of_mem _ hi)
      obtain ⟨hg3, hkeep3⟩ := ih _ hg2 hs2
      exact ⟨hg3, fun j hj hnok => hkeep3 j (hkeep2 j hj hnok) hnok⟩

end RayTpu

namespace RayTpu

/-- C6: for a batch of dispatched futures that all succeed, whatever order the
scheduler resolves them in (any schedule that drains the pending list), each
outcome is recorded at its dispatch index and the attempt returns the results
in dispatch order. -/
theorem c6_dispatch_order {α : Type} (vs : List α) (sig : Bool) (healthObs : List Bool)
    (sched : List (Option Nat))
    (hh : healthObs.all (fun b => b) = true)
    (hdone : (poll_loop (vs.map FutureOutcome.ok) sig healthObs sched
        (init_state α (vs.map FutureOutcome.ok).length)).pending = []) :
    attempt_decision (vs.map FutureOutcome.ok) sig healthObs sched
      = some (.done vs) := by
  have hsok : ∀ i, some i ∈ sched → i < (vs.map FutureOutcome.ok).length →
      ∃ v, (vs.map FutureOutcome.ok)[i]? = some (FutureOutcome.ok v) := by
    intro i _ hi
    have hi2 : i < vs.length := by simpa using hi
    refine ⟨vs[i], ?_⟩
    rw [List.getElem?_map, List.getElem?_eq_getElem hi2]
    rfl
  obtain ⟨hgF, _⟩ := aux_good_poll (vs.map FutureOutcome.ok) sig healthObs hh sched _
      (aux_good_init _) hsok
  obtain ⟨⟨hlen, _, _, _, _⟩, hfailF, hgoodF⟩ := hgF
  have hres : (poll_loop (vs.map FutureOutcome.ok) sig healthObs sched
        (init_state α (vs.map FutureOutcome.ok).length)).results
      = (vs.map TpuRunResult.success).map some := by
    apply List.ext_getElem?
    intro n
    by_cases hn : n < vs.length
    · have hn2 : n < (vs.map FutureOutcome.ok).length := by simpa using hn
      obtain ⟨v, hv, hr⟩ := hgoodF n hn2 (by rw [hdone]; exact List.not_mem_nil _)
      have hv2 : (vs.map FutureOutcome.ok)[n]? = some (FutureOutcome.ok vs[n]) := by
        rw [List.getElem?_map, List.getElem?_eq_getElem hn]
        rfl
      rw [hv] at hv2
      injection hv2 with hv2
      injection hv2 with hv2
      subst hv2
      rw [hr, List.getElem?_map, List.getElem?_map, List.getElem?_eq_getElem hn]
      rfl
    · have hn2 : vs.length ≤ n := Nat.le_of_not_lt hn
      rw [List.getElem?_eq_none (by rw [hlen]; simpa using hn2),
        List.getElem?_eq_none (by simpa using hn2)]
  simp only [attempt_decision, attempt_results]
  rw [fill_cancelled, if_neg (by rw [hfailF]; exact Bool.false_ne_true), hres,
    aux_collect_map_some]
  rw [Option.map_some', aux_process_success]

/-- C6 witness: four futures dispatched at indices 0..3, completing in order
2, 0, 3, 1, still return the results in dispatch order. -/
theorem c6_dispatch_order_witness :
    attempt_decision ([10, 20, 30, 40].map FutureOutcome.ok) false [true, true]
        [some 2, some 0, some 3, some 1]
      = some (.done [10, 20, 30, 40]) :=
  c6_dispatch_order [10, 20, 30, 40] false [true, true] [some 2, some 0, some 3, some 1]
    (by decide) (by decide)

/-- C4: if, after a prefix of cycles that only resolve successes (under
all-healthy observations), a future `j` resolves with an error classified as
ApplicationError, then the attempt stops waiting: index `j` holds the
classified error, every other index holds either its own recorded success or
`TpuCancelled` (the forced cancellation fill-in for every still-pending
future), no index is left unset, and the attempt's decision moves the failure
counter by exactly 1 and the preemption counter by 0 — not once per cancelled
sibling. -/
theorem c4_app_error_cancels_siblings {α : Type} (outs : List (FutureOutcome α)) (sig : Bool)
    (healthObs : List Bool) (pre rest : List (Option Nat)) (j : Nat) (e : RemoteError)
    (hh : healthObs.all (fun b => b) = true)
    (hj : outs[j]? = some (.err e))
    (hr : isRunErrorKind (classify_resolved_error (α := α) sig e) = true)
    (hpre : ∀ x ∈ pre, x = none ∨ ∃ i v, x = some i ∧ outs[i]? = some (FutureOutcome.ok v)) :
    C4Post outs sig healthObs (pre ++ some j :: rest) j e := by
  have hjlt : j < outs.length := by
    by_contra hnot
    rw [List.getElem?_eq_none (Nat.le_of_not_lt hnot)] at hj
    cases hj
  have hsok_pre : ∀ i, some i ∈ pre → i < outs.length →
      ∃ v, outs[i]? = some (FutureOutcome.ok v) := by
    intro i hi _
    rcases hpre _ hi with h | ⟨i2, v, heq, hv⟩
    · cases h
    · injection heq with heq
      subst heq
      exact ⟨v, hv⟩
  obtain ⟨hg1, hkeep1⟩ := aux_good_poll outs sig healthObs hh pre _ (aux_good_init outs) hsok_pre
  set st1 := poll_loop outs sig healthObs pre (init_state α outs.length) with hst1
  obtain ⟨⟨hlen1, hnd1, hmlt1, hpn1, hrs1⟩, hfail1, hgood1⟩ := hg1
  have hjp : j ∈ st1.pending := by
    refine hkeep1 j (List.mem_range.mpr hjlt) ?_
    intro v hv
    rw [hj] at hv
    injection hv with hv
    cases hv
  have hcond : (st1.pending.isEmpty || st1.hadFailure) = false := by
    cases hpd : st1.pending with
    | nil => rw [hpd] at hjp; cases hjp
    | cons a t => simp [hpd, hfail1]
  have hstepeq : poll_loop outs sig healthObs (some j :: rest) st1
      = ⟨st1.results.set j (some (classify_resolved_error sig e)), st1.pending.erase j, true⟩ := by
    simp only [poll_loop]
    rw [if_neg (by rw [hcond]; exact Bool.false_ne_true)]
    have hsc : step_cycle outs sig healthObs (some j) st1
        = ⟨st1.results.set j (some (classify_resolved_error sig e)), st1.pending.erase j, true⟩ := by
      simp [step_cycle, hjp, hj]
    rw [hsc]
    exact aux_poll_stop _ _ _ _ _ (by simp)
  have hsplit : poll_loop outs sig healthObs (pre ++ some j :: rest) (init_state α outs.length)
      = ⟨st1.results.set j (some (classify_resolved_error sig e)), st1.pending.erase j, true⟩ := by
    rw [aux_poll_append, ← hst1, hstepeq]
  unfold C4Post
  set R := attempt_results outs sig healthObs (pre ++ some j :: rest) with hRset
  have hR : R = (st1.pending.erase j).foldl (fun res i => res.set i (some TpuRunResult.cancelled))
      (st1.results.set j (some (classify_resolved_error sig e))) := by
    rw [hRset, attempt_results, hsplit]
    simp [fill_cancelled]
  have hjer : j ∉ st1.pending.erase j := hnd1.not_mem_erase
  have hjlen : j < st1.results.length := by
    rw [hlen1]
    exact hjlt
  have hRj : R[j]? = some (some (classify_resolved_error sig e)) := by
    rw [hR, aux_foldl_set_not_mem _ _ _ _ hjer, List.getElem?_set_self hjlen]
  have hRlen : R.length = outs.length := by
    rw [hR, aux_foldl_set_length, List.length_set, hlen1]
  have hRother : ∀ i, i < outs.length → i ≠ j →
      R[i]? = some (some TpuRunResult.cancelled) ∨
      ∃ v, outs[i]? = some (FutureOutcome.ok v) ∧ R[i]? = some (some (.success v)) := by
    intro i hi hne
    by_cases hip : i ∈ st1.pending.erase j
    · left
      rw [hR]
      exact aux_foldl_set_mem _ _ _ _ hip (by rw [List.length_set, hlen1]; exact hi)
    · right
      have hiP : i ∉ st1.pending := fun hm => hip ((List.mem_erase_of_ne hne).mpr hm)
      obtain ⟨v, hv, hres⟩ := hgood1 i hi hiP
      refine ⟨v, hv, ?_⟩
      rw [hR, aux_foldl_set_not_mem _ _ _ _ hip, List.getElem?_set_ne (Ne.symm hne), hres]
  have hall : ∀ i, i < outs.length → ∃ r, R[i]? = some (some r) := by
    intro i hi
    by_cases hij : i = j
    · subst hij
      exact ⟨_, hRj⟩
    · rcases hRother i hi hij with h | ⟨v, _, h⟩
      · exact ⟨_, h⟩
      · exact ⟨_, h⟩
  have hnone : ∀ x ∈ R, x ≠ none := by
    intro x hx
    obtain ⟨n2, hn2⟩ := List.mem_iff_getElem?.mp hx
    have hlt : n2 < R.length := (List.getElem?_eq_some.mp hn2).1
    obtain ⟨r, hr2⟩ := hall n2 (by rwa [hRlen] at hlt)
    rw [hn2] at hr2
    injection hr2 with hr2
    rw [hr2]
    simp
  obtain ⟨rs, hrs⟩ := aux_all_some_exists R hnone
  have hcollect : collect_results R = some rs := by
    rw [hrs, aux_collect_map_some]
  have hanyP : rs.any isPreemptedLike = false := by
    by_contra hc
    rw [Bool.not_eq_false] at hc
    obtain ⟨x, hx, hpx⟩ := List.any_eq_true.mp hc
    have hxR : some x ∈ R := by
      rw [hrs]
      exact List.mem_map_of_mem _ hx
    obtain ⟨n2, hn2⟩ := List.mem_iff_getElem?.mp hxR
    have hlt : n2 < R.length := (List.getElem?_eq_some.mp hn2).1
    have hlt2 : n2 < outs.length := by rwa [hRlen] at hlt
    by_cases hn2j : n2 = j
    · subst hn2j
      rw [hRj] at hn2
      injection hn2 with hn2
      injection hn2 with hn2
      rw [← hn2] at hpx
      rw [aux_runError_not_preemptedLike _ hr] at hpx
      exact Bool.noConfusion hpx
    · rcases hRother n2 hlt2 hn2j with hcc | ⟨v, _, hcc⟩
      · rw [hcc] at hn2
        injection hn2 with hn2
        injection hn2 with hn2
        rw [← hn2] at hpx
        exact Bool.noConfusion hpx
      · rw [hcc] at hn2
        injection hn2 with hn2
        injection hn2 with hn2
        rw [← hn2] at hpx
        exact Bool.noConfusion hpx
  have hanyF : rs.any isRunErrorKind = true := by
    refine List.any_eq_true.mpr ⟨classify_resolved_error sig e, ?_, hr⟩
    have hn := hRj
    rw [hrs, List.getElem?_map] at hn
    cases hx : rs[j]? with
    | none => rw [hx] at hn; cases hn
    | some x =>
      rw [hx, Option.map_some'] at hn
      injection hn with hn
      injection hn with hn
      rw [hn] at hx
      exact List.mem_iff_getElem?.mpr ⟨j, hx⟩
  have hdec : process_results rs = .retryFailed := by
    simp [process_results, aux_agg_anyPreempted, aux_agg_anyFailed, emptyAgg, hanyP, hanyF]
  refine ⟨hall, hRj, hRother, ?_⟩
  simp only [attempt_decision, ← hRset]
  rw [hcollect, Option.map_some', hdec, Option.map_some']
  rfl

/-- C4 witness: three futures; future 0 succeeds first, then future 1 raises
an application error; future 2 (still pending) is cancelled, every index is
set, and the counter delta is exactly one failure. -/
theorem c4_app_error_cancels_siblings_witness :
    C4Post (α := Nat) [FutureOutcome.ok 5, .err (.rayTask false false), .ok 7] false [true]
      [some 0, some 1] 1 (.rayTask false false) :=
  c4_app_error_cancels_siblings [FutureOutcome.ok 5, .err (.rayTask false false), .ok 7]
    false [true] [some 0] [] 1 (.rayTask false false) (by decide) rfl (by decide)
    (by
      intro x hx
      rcases List.mem_singleton.mp hx with h
      subst h
      exact Or.inr ⟨0, 5, rfl, rfl⟩)

end RayTpu
